import Mathlib

/-!
Verification of the tutorial's custom KZG backend (chapter 15): the
scalar-field type `CustomFr`, the projective curve-group type `CustomG1`,
the NTT routine and the two MSM routines, shallowly embedded from the Rust
source `examples/chapter15_custom_backend_implementation.rs`.

Modelling conventions:
* a `[u64; 4]` limb array is represented by the 256-bit value it denotes
  (`limbs[0] + limbs[1]*2^64 + limbs[2]*2^128 + limbs[3]*2^192`, a `Nat`);
  carry/borrow wrap-around of the limb loops is written `% 2 ^ 256`;
* byte arrays are `List Nat` whose entries are below 256;
* `&mut` slices become explicit state passing: `ntt` returns the final
  slice contents next to its `Result`;
* a Rust `panic!` is modelled by `Option.none`, `Result<T, String>` by
  `Except String T`;
* `while` loops are modelled by fuel recursion, with fuel large enough to
  cover every iteration the loop can perform at the given arguments.
-/

namespace Chapter15

/-- Wrap-around bound of a `[u64; 4]` limb array: `2 ^ 256`. -/
@[reducible] def B : Nat := 2 ^ 256

/-- `CustomFr`: four `u64` limbs, modelled by the 256-bit value they denote. -/
structure CustomFr where
  val : Nat
deriving DecidableEq, Repr

namespace CustomFr

/-- BLS12-381 scalar-field modulus `r` (the source constant `MODULUS`,
little-endian limbs `[0xffffffff00000001, 0x53bda402fffe5bfe,
0x3339d80809a1d805, 0x73eda753299d7d48]`). -/
@[reducible] def MODULUS : Nat :=
  0x73eda753299d7d483339d80809a1d80553bda402fffe5bfeffffffff00000001

/-- `CustomFr::zero`. -/
def zero : CustomFr := ⟨0⟩

/-- `CustomFr::one` (limbs `[1, 0, 0, 0]`). -/
def one : CustomFr := ⟨1⟩

/-- `CustomFr::is_valid`: limb-by-limb lexicographic comparison with
`MODULUS` from the most significant limb down, which on the represented
values is exactly the comparison `val < MODULUS` (equality is invalid). -/
def is_valid (a : CustomFr) : Bool := a.val < MODULUS

/-- `CustomFr::is_zero`: all limbs zero. -/
def is_zero (a : CustomFr) : Bool := a.val == 0

/-- `CustomFr::is_one`. -/
def is_one (a : CustomFr) : Bool := a == one

/-- `CustomFr::mod_reduce`: keep a valid value unchanged; otherwise subtract
the modulus once with borrow propagation through the four limbs, i.e. a
wrapping subtraction modulo `2 ^ 256`. -/
def mod_reduce (a : CustomFr) : CustomFr :=
  if is_valid a then a else ⟨(a.val + B - MODULUS) % B⟩

/-- `impl Add for CustomFr`: limb addition with carry, the carry out of the
top limb being discarded (`% 2 ^ 256`), followed by `mod_reduce`. -/
def add (a b : CustomFr) : CustomFr := mod_reduce ⟨(a.val + b.val) % B⟩

/-- `impl Sub for CustomFr`: limb subtraction with borrow (wrapping modulo
`2 ^ 256`); when a borrow leaves the top limb, the raw modulus value is
added back through `add`. -/
def sub (a b : CustomFr) : CustomFr :=
  if a.val < b.val then add ⟨(a.val + B - b.val) % B⟩ ⟨MODULUS⟩
  else ⟨(a.val + B - b.val) % B⟩

/-- `impl Mul for CustomFr`: schoolbook 8-limb product of which only the low
four limbs are kept (`% 2 ^ 256`), followed by `mod_reduce`. -/
def mul (a b : CustomFr) : CustomFr := mod_reduce ⟨(a.val * b.val) % B⟩

/-- `impl Neg for CustomFr`. -/
def neg (a : CustomFr) : CustomFr := if is_zero a then a else sub ⟨MODULUS⟩ a

/-- `CustomFr::square`. -/
def square (a : CustomFr) : CustomFr := mul a a

/-- `CustomFr::from_u64` (`to_montgomery` is the identity in the source);
the `% 2 ^ 64` records the `u64` argument range. -/
def from_u64 (v : Nat) : CustomFr := ⟨v % 2 ^ 64⟩

/-- `CustomFr::from_u64_arr`: the raw value of a `[u64; 4]` argument,
passed through `mod_reduce`. -/
def from_u64_arr (v : Nat) : CustomFr := mod_reduce ⟨v % B⟩

/-- `u64::to_be_bytes`: the eight big-endian bytes of a 64-bit limb. -/
def be_bytes_8 (w : Nat) : List Nat :=
  [w / 2 ^ 56 % 256, w / 2 ^ 48 % 256, w / 2 ^ 40 % 256, w / 2 ^ 32 % 256,
   w / 2 ^ 24 % 256, w / 2 ^ 16 % 256, w / 2 ^ 8 % 256, w % 256]

/-- `CustomFr::to_bytes_be`: bytes `8*i .. 8*i+8` hold limb `3 - i`
big-endian (`from_montgomery` is the identity in the source). -/
def to_bytes_be (a : CustomFr) : List Nat :=
  be_bytes_8 (a.val / 2 ^ 192 % 2 ^ 64) ++ be_bytes_8 (a.val / 2 ^ 128 % 2 ^ 64) ++
  be_bytes_8 (a.val / 2 ^ 64 % 2 ^ 64) ++ be_bytes_8 (a.val % 2 ^ 64)

/-- `u64::from_be_bytes` on eight byte values. -/
def u64_from_be (b0 b1 b2 b3 b4 b5 b6 b7 : Nat) : Nat :=
  ((((((b0 * 256 + b1) * 256 + b2) * 256 + b3) * 256 + b4) * 256 + b5) * 256 + b6) * 256 + b7

/-- `CustomFr::from_bytes_be`: limb `3 - i` is read big-endian from bytes
`8*i .. 8*i+8`; the element is accepted only when `is_valid`
(`to_montgomery` is the identity in the source). -/
def from_bytes_be (bs : List Nat) : Except String CustomFr :=
  let l3 := u64_from_be (bs.getD 0 0) (bs.getD 1 0) (bs.getD 2 0) (bs.getD 3 0)
      (bs.getD 4 0) (bs.getD 5 0) (bs.getD 6 0) (bs.getD 7 0)
  let l2 := u64_from_be (bs.getD 8 0) (bs.getD 9 0) (bs.getD 10 0) (bs.getD 11 0)
      (bs.getD 12 0) (bs.getD 13 0) (bs.getD 14 0) (bs.getD 15 0)
  let l1 := u64_from_be (bs.getD 16 0) (bs.getD 17 0) (bs.getD 18 0) (bs.getD 19 0)
      (bs.getD 20 0) (bs.getD 21 0) (bs.getD 22 0) (bs.getD 23 0)
  let l0 := u64_from_be (bs.getD 24 0) (bs.getD 25 0) (bs.getD 26 0) (bs.getD 27 0)
      (bs.getD 28 0) (bs.getD 29 0) (bs.getD 30 0) (bs.getD 31 0)
  let element : CustomFr := ⟨l0 + l1 * 2 ^ 64 + l2 * 2 ^ 128 + l3 * 2 ^ 192⟩
  if is_valid element then Except.ok element else Except.error "输入值大于域的模数"

/-- `CustomFr::pow`: square-and-multiply over the big-endian byte string of
the exponent, scanned from the last byte and, within a byte, from bit 0
upwards; the running base is squared once per bit. -/
def pow (a expv : CustomFr) : CustomFr :=
  ((to_bytes_be expv).reverse.foldl (fun rb byte =>
    (List.range 8).foldl (fun rb i =>
      ((if (byte >>> i) &&& 1 == 1 then mul rb.1 rb.2 else rb.1), mul rb.2 rb.2)) rb)
    (one, a)).1

/-- `CustomFr::inverse`: panics on zero (modelled by `none`); otherwise
Fermat exponentiation by the limb array `[MODULUS₀ - 2, MODULUS₁, MODULUS₂,
MODULUS₃]`, whose value is `MODULUS - 2` because `MODULUS₀ ≥ 2` leaves the
low-limb subtraction borrow-free. -/
def inverse (a : CustomFr) : Option CustomFr :=
  if is_zero a then none else some (pow a (from_u64_arr (MODULUS - 2)))

end CustomFr

/-- `CustomG1`: projective point over `CustomFr` coordinates. -/
structure CustomG1 where
  x : CustomFr
  y : CustomFr
  z : CustomFr
deriving DecidableEq, Repr

namespace CustomG1

/-- `CustomG1::identity`: the point at infinity `(0, 1, 0)`. -/
def identity : CustomG1 := ⟨CustomFr.zero, CustomFr.one, CustomFr.zero⟩

/-- `CustomG1::is_identity`: `z` is zero. -/
def is_identity (p : CustomG1) : Bool := CustomFr.is_zero p.z

/-- `CustomG1::generator`: `(from_u64 1, from_u64 2, one)`. -/
def generator : CustomG1 := ⟨CustomFr.from_u64 1, CustomFr.from_u64 2, CustomFr.one⟩

/-- `CustomG1::double`: identity is fixed; otherwise `x` and `y` are doubled
through field multiplication by `from_u64 2` and `z` is kept. -/
def double (p : CustomG1) : CustomG1 :=
  if is_identity p then p
  else ⟨CustomFr.mul p.x (CustomFr.from_u64 2), CustomFr.mul p.y (CustomFr.from_u64 2), p.z⟩

/-- `CustomG1::add`: identity operands short-circuit; equal operands (whole
structure equality) delegate to `double`; every other pair is combined by
component-wise field addition of the three coordinates. -/
def add (p q : CustomG1) : CustomG1 :=
  if is_identity p then q
  else if is_identity q then p
  else if p = q then double p
  else ⟨CustomFr.add p.x q.x, CustomFr.add p.y q.y, CustomFr.add p.z q.z⟩

/-- `impl Neg for CustomG1`: identity is fixed; otherwise `y` is negated. -/
def neg (p : CustomG1) : CustomG1 :=
  if is_identity p then p else ⟨p.x, CustomFr.neg p.y, p.z⟩

/-- `CustomG1::mul_scalar`: double-and-add over the big-endian byte string of
the scalar, scanned from the last byte and, within a byte, from bit 0
upwards; the running addend is doubled once per bit. -/
def mul_scalar (p : CustomG1) (scalar : CustomFr) : CustomG1 :=
  ((CustomFr.to_bytes_be scalar).reverse.foldl (fun ra byte =>
    (List.range 8).foldl (fun ra i =>
      ((if (byte >>> i) &&& 1 == 1 then add ra.1 ra.2 else ra.1), double ra.2)) ra)
    (identity, p)).1

/-- `CustomG1::to_bytes`: 64 bytes, `x` then `y`, each 32 bytes big-endian. -/
def to_bytes (p : CustomG1) : List Nat :=
  CustomFr.to_bytes_be p.x ++ CustomFr.to_bytes_be p.y

/-- `CustomG1::from_bytes`: expects exactly 64 bytes, decodes `x` from the
first 32 and `y` from the last 32 (each may fail), and fixes `z = one`. -/
def from_bytes (bs : List Nat) : Except String CustomG1 :=
  if bs.length ≠ 64 then Except.error "字节数组长度应为64"
  else
    match CustomFr.from_bytes_be (bs.take 32) with
    | Except.error e => Except.error e
    | Except.ok x =>
      match CustomFr.from_bytes_be (bs.drop 32) with
      | Except.error e => Except.error e
      | Except.ok y => Except.ok ⟨x, y, CustomFr.one⟩

end CustomG1

namespace CustomFFT

/-- `usize::is_power_of_two`: exactly one bit set. -/
def is_power_of_two (n : Nat) : Bool := n != 0 && n &&& (n - 1) == 0

/-- Swap two list positions (`<[T]>::swap`). -/
def swap_at (l : List CustomFr) (i j : Nat) : List CustomFr :=
  (l.set i (l.getD j CustomFr.zero)).set j (l.getD i CustomFr.zero)

/-- The inner `while (j & bit) != 0` loop of `bit_reverse_permute`, returning
the final `(j, bit)`.  `bit` strictly shrinks each iteration, so fuel
`bit + 1` covers every iteration. -/
def br_while (j bit : Nat) : Nat → Nat × Nat
  | 0 => (j, bit)
  | fuel + 1 =>
    if j &&& bit != 0 then br_while (j ^^^ bit) (bit >>> 1) fuel else (j, bit)

/-- The `for i in 1..n` loop of `bit_reverse_permute`, carrying the evolving
`j`; fuel `n` covers the `n - 1` iterations. -/
def br_go (l : List CustomFr) (n i j : Nat) : Nat → List CustomFr
  | 0 => l
  | fuel + 1 =>
    if i < n then
      let p := br_while j (n >>> 1) (n >>> 1 + 1)
      let j1 := p.1 ^^^ p.2
      br_go (if i < j1 then swap_at l i j1 else l) n (i + 1) j1 fuel
    else l

/-- `CustomFFT::bit_reverse_permute`. -/
def bit_reverse_permute (l : List CustomFr) : List CustomFr :=
  br_go l l.length 1 0 l.length

/-- One butterfly pass at block size `m`: blocks start at `i = 0, m, 2m, …`
below `n` and each pair `(i+j, i+j+m/2)` becomes `(u+v, u-v)`. -/
def butterfly_pass (l : List CustomFr) (n m : Nat) : List CustomFr :=
  (List.range ((n + m - 1) / m)).foldl (fun l b =>
    (List.range (m / 2)).foldl (fun l j =>
      let u := l.getD (b * m + j) CustomFr.zero
      let v := l.getD (b * m + j + m / 2) CustomFr.zero
      (l.set (b * m + j) (CustomFr.add u v)).set (b * m + j + m / 2) (CustomFr.sub u v)) l) l

/-- The `while m <= n` loop of `ntt`, doubling `m` after each pass; `m`
starts at 2 and doubles, so fuel `n` covers every iteration. -/
def butterfly_loop (l : List CustomFr) (n m : Nat) : Nat → List CustomFr
  | 0 => l
  | fuel + 1 =>
    if m ≤ n then butterfly_loop (butterfly_pass l n m) n (m * 2) fuel else l

/-- `CustomFFT::ntt` on a `&mut` slice, returning the `Result` next to the
final slice contents.  A length that is not a power of two errors out before
any mutation; otherwise: bit-reversal permutation, butterfly passes for
`m = 2, 4, …, n`, and, for the inverse direction with `n > 0`, each
coefficient is replaced by `from_u64(limbs[0] / n)`. -/
def ntt (coeffs : List CustomFr) (inverse : Bool) : Except String Unit × List CustomFr :=
  let n := coeffs.length
  if ¬ is_power_of_two n then (Except.error "长度必须是2的幂", coeffs)
  else
    let c1 := bit_reverse_permute coeffs
    let c2 := butterfly_loop c1 n 2 n
    let c3 := if inverse then
        (if n > 0 then c2.map (fun c => CustomFr.from_u64 (c.val % 2 ^ 64 / n)) else c2)
      else c2
    (Except.ok (), c3)

end CustomFFT

namespace CustomMSM

/-- `CustomMSM::naive_msm`: mismatched lengths error out; otherwise the
points/scalars pairs are folded in order through `CustomG1::add` of
`mul_scalar`, starting from the identity. -/
def naive_msm (points : List CustomG1) (scalars : List CustomFr) :
    Except String CustomG1 :=
  if points.length ≠ scalars.length then Except.error "点和标量数量不匹配"
  else Except.ok ((points.zip scalars).foldl
    (fun acc ps => CustomG1.add acc (CustomG1.mul_scalar ps.1 ps.2)) CustomG1.identity)

/-- `CustomMSM::pippenger_msm`: mismatched lengths error out; the empty input
returns the identity; every other input delegates to `naive_msm`. -/
def pippenger_msm (points : List CustomG1) (scalars : List CustomFr) :
    Except String CustomG1 :=
  if points.length ≠ scalars.length then Except.error "点和标量数量不匹配"
  else if points.length = 0 then Except.ok CustomG1.identity
  else naive_msm points scalars

end CustomMSM

deriving instance DecidableEq for Except

/-! ## Shared arithmetic lemmas about the field embedding -/

namespace CustomFr

theorem MODULUS_pos : 0 < MODULUS := by decide

theorem two_MODULUS_lt_B : 2 * MODULUS < B := by decide

/-- `mod_reduce` of a value below `2 * MODULUS` is exact reduction mod `r`. -/
theorem mod_reduce_val (v : Nat) (h2 : v < 2 * MODULUS) :
    (mod_reduce ⟨v⟩).val = v % MODULUS := by
  have hB := two_MODULUS_lt_B
  simp only [mod_reduce, is_valid, decide_eq_true_eq]
  split
  · next h => simp [Nat.mod_eq_of_lt h]
  · next h =>
    have hge : MODULUS ≤ v := le_of_not_lt h
    have hx : (v + B - MODULUS) % B = v - MODULUS := by
      rw [Nat.mod_eq_sub_mod (by omega)]
      have : v + B - MODULUS - B = v - MODULUS := by omega
      rw [this, Nat.mod_eq_of_lt (by omega)]
    have hm : v % MODULUS = v - MODULUS := by
      rw [Nat.mod_eq_sub_mod hge, Nat.mod_eq_of_lt (by omega)]
    simp [hx, hm]

/-- On canonical inputs, `add` computes addition mod `r`. -/
theorem add_val (a b : CustomFr) (ha : a.val < MODULUS) (hb : b.val < MODULUS) :
    (add a b).val = (a.val + b.val) % MODULUS := by
  have hB := two_MODULUS_lt_B
  have hs : (a.val + b.val) % B = a.val + b.val := Nat.mod_eq_of_lt (by omega)
  rw [add, hs, mod_reduce_val _ (by omega)]

/-- On canonical inputs, `sub` computes subtraction mod `r`. -/
theorem sub_val (a b : CustomFr) (ha : a.val < MODULUS) (hb : b.val < MODULUS) :
    (sub a b).val = (a.val + MODULUS - b.val) % MODULUS := by
  rw [sub]
  split
  · next h =>
    rw [add]
    have e1 : ((⟨(a.val + B - b.val) % B⟩ : CustomFr).val + (⟨MODULUS⟩ : CustomFr).val) % B
        = a.val + MODULUS - b.val := by
      show ((a.val + B - b.val) % B + MODULUS) % B = a.val + MODULUS - b.val
      unfold B MODULUS at *
      omega
    rw [e1, mod_reduce_val _ (by omega), Nat.mod_eq_of_lt (by omega)]
  · next h =>
    show (a.val + B - b.val) % B = (a.val + MODULUS - b.val) % MODULUS
    unfold B MODULUS at *
    omega

/-- On a canonical input, `neg` computes negation mod `r`. -/
theorem neg_val (a : CustomFr) (ha : a.val < MODULUS) :
    (neg a).val = (MODULUS - a.val) % MODULUS := by
  rw [neg]
  split
  · next h =>
    simp only [is_zero, beq_iff_eq] at h
    simp [h]
  · next h =>
    simp only [is_zero, beq_iff_eq] at h
    rw [sub]
    split
    · next hlt => exact absurd hlt (Nat.not_lt.mpr (Nat.le_of_lt ha))
    · next hge =>
      show (MODULUS + B - a.val) % B = (MODULUS - a.val) % MODULUS
      unfold B MODULUS at *
      omega

/-- `add` keeps canonical inputs canonical. -/
theorem add_lt (a b : CustomFr) (ha : a.val < MODULUS) (hb : b.val < MODULUS) :
    (add a b).val < MODULUS := by
  rw [add_val a b ha hb]
  exact Nat.mod_lt _ MODULUS_pos

/-- `sub` keeps canonical inputs canonical. -/
theorem sub_lt (a b : CustomFr) (ha : a.val < MODULUS) (hb : b.val < MODULUS) :
    (sub a b).val < MODULUS := by
  rw [sub_val a b ha hb]
  exact Nat.mod_lt _ MODULUS_pos

theorem from_bytes_be_ok_lt (bs : List Nat) (x : CustomFr)
    (h : from_bytes_be bs = Except.ok x) : x.val < MODULUS := by
  simp only [from_bytes_be] at h
  split at h
  · next hv =>
    simp only [is_valid, decide_eq_true_eq] at hv
    cases h
    exact hv
  · cases h

end CustomFr

/-! ## C1 — canonicity of the field operations -/

open CustomFr in
/-- C1 (amended): on canonical operands, `add`, `sub`, `neg`, `from_u64` and a
successful `from_bytes_be` all return canonical representatives (`< MODULUS`);
`mul` and `square` are excluded because they can return un-reduced values. -/
theorem c1_canonical_ops (a b : CustomFr)
    (ha : a.val < MODULUS) (hb : b.val < MODULUS) :
    (add a b).val < MODULUS ∧ (sub a b).val < MODULUS ∧ (neg a).val < MODULUS ∧
    (∀ v : Nat, (from_u64 v).val < MODULUS) ∧
    (∀ (bs : List Nat) (x : CustomFr), from_bytes_be bs = Except.ok x →
      x.val < MODULUS) := by
  refine ⟨?_, ?_, ?_, ?_, fun bs x h => from_bytes_be_ok_lt bs x h⟩
  · rw [add_val a b ha hb]
    exact Nat.mod_lt _ MODULUS_pos
  · rw [sub_val a b ha hb]
    exact Nat.mod_lt _ MODULUS_pos
  · rw [neg_val a ha]
    exact Nat.mod_lt _ MODULUS_pos
  · intro v
    have h64 : v % 2 ^ 64 < 2 ^ 64 := Nat.mod_lt _ (by norm_num)
    have : (2 : Nat) ^ 64 < MODULUS := by decide
    simp only [from_u64]
    omega

/-- Witness for C1 at concrete canonical inputs. -/
theorem c1_canonical_ops_witness :
    (100 : Nat) < CustomFr.MODULUS ∧ (200 : Nat) < CustomFr.MODULUS ∧
    (CustomFr.add ⟨100⟩ ⟨200⟩).val < CustomFr.MODULUS := by
  refine ⟨by decide, by decide, ?_⟩
  exact (c1_canonical_ops ⟨100⟩ ⟨200⟩ (by decide) (by decide)).1

/-- C1 counterexample: the canonical elements `2^128` and `2^128 - 1`
multiply (and `2^128 - 1` squares) to un-reduced values `≥ MODULUS`. -/
theorem c1_mul_not_canonical :
    (2 ^ 128 : Nat) < CustomFr.MODULUS ∧ (2 ^ 128 - 1 : Nat) < CustomFr.MODULUS ∧
    ¬ (CustomFr.mul ⟨2 ^ 128⟩ ⟨2 ^ 128 - 1⟩).val < CustomFr.MODULUS ∧
    ¬ (CustomFr.square ⟨2 ^ 128 - 1⟩).val < CustomFr.MODULUS := by
  decide

/-! ## C2 — `a * a.inverse()` is not `one`, even on the repository's own
test input `a = from_u64 100` (`assert_eq!(a * a.inverse(), CustomFr::one())`
in `test_fr_basic_operations`) -/

set_option maxRecDepth 100000 in
/-- C2: evaluating the code at the failing input `a = from_u64 100`: the
product of `a` with the element returned by `inverse` is `zero`, not `one`. -/
theorem c2_inverse_fails_at_100 :
    (Chapter15.CustomFr.inverse (CustomFr.from_u64 100)).map
      (fun b => CustomFr.mul (CustomFr.from_u64 100) b) = some CustomFr.zero ∧
    CustomFr.zero ≠ CustomFr.one := by
  exact ⟨by decide, by decide⟩

/-! ## C3 — `add(g, neg(g))` is not the identity -/

/-- C3: evaluating the code at the generator: component-wise addition of `g`
and `neg g` yields the point `(2, 0, 2)`, whose `z`-coordinate is non-zero,
so it differs from the identity `(0, 1, 0)`.  (The repository's own test
`test_g1_basic_operations` asserts `g + (-g) == id`.) -/
theorem c3_add_neg_not_identity :
    CustomG1.add CustomG1.generator (CustomG1.neg CustomG1.generator) =
      (⟨⟨2⟩, ⟨0⟩, ⟨2⟩⟩ : CustomG1) ∧
    CustomG1.add CustomG1.generator (CustomG1.neg CustomG1.generator) ≠
      CustomG1.identity := by
  exact ⟨by decide, by decide⟩

/-! ## C5 — `pippenger_msm` agrees with `naive_msm` on equal-length inputs -/

/-- C5: for equal-length inputs the two MSM routines return the same result:
the zero-length special case returns the identity, which is also the empty
fold of `naive_msm`, and every other case delegates to `naive_msm`. -/
theorem c5_pippenger_eq_naive (points : List CustomG1) (scalars : List CustomFr)
    (h : points.length = scalars.length) :
    CustomMSM.pippenger_msm points scalars = CustomMSM.naive_msm points scalars := by
  by_cases h0 : points.length = 0
  · have hp : points = [] := List.length_eq_zero.mp h0
    have hs : scalars = [] := List.length_eq_zero.mp (by omega)
    subst hp hs
    decide
  · rw [CustomMSM.pippenger_msm, if_neg (by omega), if_neg h0]

/-- Witness for C5 at a concrete input. -/
theorem c5_pippenger_eq_naive_witness :
    CustomMSM.pippenger_msm [CustomG1.generator] [CustomFr.from_u64 3] =
    CustomMSM.naive_msm [CustomG1.generator] [CustomFr.from_u64 3] :=
  c5_pippenger_eq_naive [CustomG1.generator] [CustomFr.from_u64 3] rfl

/-! ## C9 — `inverse` on zero is a distinct precondition violation -/

/-- C9: `inverse` of the zero element panics (modelled by `none`), so no
field element — in particular neither `zero` nor `one` — is returned; on
every non-zero element `inverse` returns normally (`some`). -/
theorem c9_inverse_zero_guard :
    CustomFr.inverse CustomFr.zero = none ∧
    (∀ a : CustomFr, a.val ≠ 0 → ∃ b, CustomFr.inverse a = some b) := by
  refine ⟨rfl, fun a h =>
    ⟨CustomFr.pow a (CustomFr.from_u64_arr (CustomFr.MODULUS - 2)), ?_⟩⟩
  rw [CustomFr.inverse, if_neg (by simp [CustomFr.is_zero, h])]

/-- Witness for C9 at a concrete non-zero input. -/
theorem c9_inverse_zero_guard_witness :
    ((5 : Nat) ≠ 0) ∧ ∃ b, CustomFr.inverse ⟨5⟩ = some b :=
  ⟨by decide, c9_inverse_zero_guard.2 ⟨5⟩ (by decide)⟩

/-! ## C4 — specification of `naive_msm` -/

/-- Folding a binary step over `zip` is folding over the indices. -/
theorem zip_foldl_eq_range_foldl {α β γ : Type} (f : γ → α → β → γ)
    (da : α) (db : β) :
    ∀ (ps : List α) (ss : List β), ps.length = ss.length → ∀ acc : γ,
      (ps.zip ss).foldl (fun c pq => f c pq.1 pq.2) acc =
      (List.range ps.length).foldl (fun c i => f c (ps.getD i da) (ss.getD i db)) acc
  | [], [], _, acc => by simp
  | [], _ :: _, h, acc => by simp at h
  | _ :: _, [], h, acc => by simp at h
  | p :: ps, s :: ss, h, acc => by
    simp only [List.zip_cons_cons, List.foldl_cons, List.length_cons,
      List.range_succ_eq_map, List.foldl_map, List.getD_cons_zero,
      List.getD_cons_succ]
    exact zip_foldl_eq_range_foldl f da db ps ss (by simpa using h) (f acc p s)

/-- C4: `naive_msm` errors exactly on mismatched lengths, and on matched
lengths returns the fold, from the identity and in increasing index order,
of `add` over `mul_scalar points[i] scalars[i]`. -/
theorem c4_naive_msm_spec (points : List CustomG1) (scalars : List CustomFr) :
    ((∃ e, CustomMSM.naive_msm points scalars = Except.error e) ↔
      points.length ≠ scalars.length) ∧
    (points.length = scalars.length →
      CustomMSM.naive_msm points scalars = Except.ok
        ((List.range points.length).foldl
          (fun acc i => CustomG1.add acc (CustomG1.mul_scalar
            (points.getD i CustomG1.identity) (scalars.getD i CustomFr.zero)))
          CustomG1.identity)) := by
  have hspec : points.length = scalars.length →
      CustomMSM.naive_msm points scalars = Except.ok
        ((List.range points.length).foldl
          (fun acc i => CustomG1.add acc (CustomG1.mul_scalar
            (points.getD i CustomG1.identity) (scalars.getD i CustomFr.zero)))
          CustomG1.identity) := by
    intro h
    rw [CustomMSM.naive_msm, if_neg (by omega)]
    exact congrArg Except.ok
      (zip_foldl_eq_range_foldl (fun acc p s => CustomG1.add acc (CustomG1.mul_scalar p s))
        CustomG1.identity CustomFr.zero points scalars h CustomG1.identity)
  refine ⟨⟨?_, ?_⟩, hspec⟩
  · rintro ⟨e, he⟩ hlen
    rw [hspec hlen] at he
    exact Except.noConfusion he
  · intro hlen
    exact ⟨_, by rw [CustomMSM.naive_msm, if_pos hlen]⟩

/-- Witness for C4: a mismatched pair errors; a matched pair evaluates to
the indexed fold. -/
theorem c4_naive_msm_spec_witness :
    (∃ e, CustomMSM.naive_msm [CustomG1.generator] [] = Except.error e) ∧
    CustomMSM.naive_msm [CustomG1.generator, CustomG1.generator]
        [CustomFr.from_u64 3, CustomFr.from_u64 5] =
      Except.ok ((List.range 2).foldl
        (fun acc i => CustomG1.add acc (CustomG1.mul_scalar
          (List.getD [CustomG1.generator, CustomG1.generator] i CustomG1.identity)
          (List.getD [CustomFr.from_u64 3, CustomFr.from_u64 5] i CustomFr.zero)))
        CustomG1.identity) :=
  ⟨(c4_naive_msm_spec [CustomG1.generator] []).1.mpr (by decide),
   (c4_naive_msm_spec [CustomG1.generator, CustomG1.generator]
      [CustomFr.from_u64 3, CustomFr.from_u64 5]).2 rfl⟩

/-! ## C10 — `ntt` on a non-power-of-two length errors before any mutation -/

/-- C10: when the length is not a power of two, `ntt` returns the length
error and the slice contents are exactly the input (the check precedes the
permutation and the butterfly passes). -/
theorem c10_ntt_length_error_atomicity (coeffs : List CustomFr) (inverse : Bool)
    (h : CustomFFT.is_power_of_two coeffs.length = false) :
    (CustomFFT.ntt coeffs inverse).1 = Except.error "长度必须是2的幂" ∧
    (CustomFFT.ntt coeffs inverse).2 = coeffs := by
  constructor <;> simp [CustomFFT.ntt, h]

/-- Witness for C10 at a length-3 input. -/
theorem c10_ntt_length_error_atomicity_witness :
    CustomFFT.is_power_of_two (List.length
      [CustomFr.from_u64 1, CustomFr.from_u64 2, CustomFr.from_u64 3]) = false ∧
    (CustomFFT.ntt [CustomFr.from_u64 1, CustomFr.from_u64 2, CustomFr.from_u64 3]
      false).2 = [CustomFr.from_u64 1, CustomFr.from_u64 2, CustomFr.from_u64 3] :=
  ⟨by decide,
   (c10_ntt_length_error_atomicity
     [CustomFr.from_u64 1, CustomFr.from_u64 2, CustomFr.from_u64 3] false
     (by decide)).2⟩

/-! ## C6 — the NTT round trip -/

/-- C6 counterexample: on the power-of-two-length vector `[2^64]` (a single
canonical field element) both transform directions succeed, yet the round
trip returns `[0]`, not the original vector: the inverse direction divides
`limbs[0]` of each coefficient — here `0` — by `n` instead of multiplying
by the field inverse of `n`. -/
theorem c6_roundtrip_fails_on_singleton :
    ((2 : Nat) ^ 64 < CustomFr.MODULUS) ∧
    (CustomFFT.ntt [(⟨2 ^ 64⟩ : CustomFr)] false).1 = Except.ok () ∧
    (CustomFFT.ntt (CustomFFT.ntt [(⟨2 ^ 64⟩ : CustomFr)] false).2 true).1 =
      Except.ok () ∧
    (CustomFFT.ntt (CustomFFT.ntt [(⟨2 ^ 64⟩ : CustomFr)] false).2 true).2 =
      [(⟨0⟩ : CustomFr)] ∧
    [(⟨0⟩ : CustomFr)] ≠ [(⟨2 ^ 64⟩ : CustomFr)] := by
  refine ⟨by decide, by decide, by decide, by decide, by decide⟩

/-- Specialization of `ntt` to inputs of length 4: the power-of-two check
passes and both loops run with `n = 4`. -/
theorem ntt_len4 (l : List CustomFr) (inv : Bool) (h : l.length = 4) :
    CustomFFT.ntt l inv = (Except.ok (),
      if inv then (CustomFFT.butterfly_loop (CustomFFT.br_go l 4 1 0 4) 4 2 4).map
          (fun c => CustomFr.from_u64 (c.val % 2 ^ 64 / 4))
      else CustomFFT.butterfly_loop (CustomFFT.br_go l 4 1 0 4) 4 2 4) := by
  have hp : CustomFFT.is_power_of_two 4 = true := by decide
  simp [CustomFFT.ntt, CustomFFT.bit_reverse_permute, h, hp]

set_option maxHeartbeats 1000000 in
/-- C6 (amended): the round trip does hold on every length-4 vector of
canonical elements below `2 ^ 62` (covering the repository's own test vector
`[1, 2, 3, 4]` of `test_fft_roundtrip`): the two butterfly networks compose
to multiplication by 4 in the field, and when `4 * v < 2 ^ 64` the integer
division of `limbs[0]` by `n = 4` undoes it. -/
theorem c6_roundtrip_len4 (a b c d : CustomFr)
    (ha : a.val < 2 ^ 62) (hb : b.val < 2 ^ 62)
    (hc : c.val < 2 ^ 62) (hd : d.val < 2 ^ 62) :
    (CustomFFT.ntt [a, b, c, d] false).1 = Except.ok () ∧
    (CustomFFT.ntt (CustomFFT.ntt [a, b, c, d] false).2 true).1 = Except.ok () ∧
    (CustomFFT.ntt (CustomFFT.ntt [a, b, c, d] false).2 true).2 = [a, b, c, d] := by
  have haM : a.val < CustomFr.MODULUS := by unfold CustomFr.MODULUS; omega
  have hbM : b.val < CustomFr.MODULUS := by unfold CustomFr.MODULUS; omega
  have hcM : c.val < CustomFr.MODULUS := by unfold CustomFr.MODULUS; omega
  have hdM : d.val < CustomFr.MODULUS := by unfold CustomFr.MODULUS; omega
  have hfwd : CustomFFT.ntt [a, b, c, d] false = (Except.ok (), [(CustomFr.add (CustomFr.add a c) (CustomFr.add b d)), (CustomFr.add (CustomFr.sub a c) (CustomFr.sub b d)), (CustomFr.sub (CustomFr.add a c) (CustomFr.add b d)), (CustomFr.sub (CustomFr.sub a c) (CustomFr.sub b d))]) := by
    rw [ntt_len4 [a, b, c, d] false rfl]
    rfl
  have hinv : CustomFFT.ntt [(CustomFr.add (CustomFr.add a c) (CustomFr.add b d)), (CustomFr.add (CustomFr.sub a c) (CustomFr.sub b d)), (CustomFr.sub (CustomFr.add a c) (CustomFr.add b d)), (CustomFr.sub (CustomFr.sub a c) (CustomFr.sub b d))] true =
      (Except.ok (), [CustomFr.from_u64 ((CustomFr.add (CustomFr.add (CustomFr.add (CustomFr.add a c) (CustomFr.add b d)) (CustomFr.sub (CustomFr.add a c) (CustomFr.add b d))) (CustomFr.add (CustomFr.add (CustomFr.sub a c) (CustomFr.sub b d)) (CustomFr.sub (CustomFr.sub a c) (CustomFr.sub b d)))).val % 2 ^ 64 / 4),
        CustomFr.from_u64 ((CustomFr.add (CustomFr.sub (CustomFr.add (CustomFr.add a c) (CustomFr.add b d)) (CustomFr.sub (CustomFr.add a c) (CustomFr.add b d))) (CustomFr.sub (CustomFr.add (CustomFr.sub a c) (CustomFr.sub b d)) (CustomFr.sub (CustomFr.sub a c) (CustomFr.sub b d)))).val % 2 ^ 64 / 4),
        CustomFr.from_u64 ((CustomFr.sub (CustomFr.add (CustomFr.add (CustomFr.add a c) (CustomFr.add b d)) (CustomFr.sub (CustomFr.add a c) (CustomFr.add b d))) (CustomFr.add (CustomFr.add (CustomFr.sub a c) (CustomFr.sub b d)) (CustomFr.sub (CustomFr.sub a c) (CustomFr.sub b d)))).val % 2 ^ 64 / 4),
        CustomFr.from_u64 ((CustomFr.sub (CustomFr.sub (CustomFr.add (CustomFr.add a c) (CustomFr.add b d)) (CustomFr.sub (CustomFr.add a c) (CustomFr.add b d))) (CustomFr.sub (CustomFr.add (CustomFr.sub a c) (CustomFr.sub b d)) (CustomFr.sub (CustomFr.sub a c) (CustomFr.sub b d)))).val % 2 ^ 64 / 4)]) := by
    rw [ntt_len4 [(CustomFr.add (CustomFr.add a c) (CustomFr.add b d)), (CustomFr.add (CustomFr.sub a c) (CustomFr.sub b d)), (CustomFr.sub (CustomFr.add a c) (CustomFr.add b d)), (CustomFr.sub (CustomFr.sub a c) (CustomFr.sub b d))] true rfl]
    rfl
  have hP : (CustomFr.add a c).val = a.val + c.val := by
    rw [CustomFr.add_val a c haM hcM]
    apply Nat.mod_eq_of_lt
    unfold CustomFr.MODULUS
    omega
  have hQ : (CustomFr.add b d).val = b.val + d.val := by
    rw [CustomFr.add_val b d hbM hdM]
    apply Nat.mod_eq_of_lt
    unfold CustomFr.MODULUS
    omega
  have hR : (CustomFr.sub a c).val = (a.val + CustomFr.MODULUS - c.val) % CustomFr.MODULUS := CustomFr.sub_val a c haM hcM
  have hS : (CustomFr.sub b d).val = (b.val + CustomFr.MODULUS - d.val) % CustomFr.MODULUS := CustomFr.sub_val b d hbM hdM
  have hPl : (CustomFr.add a c).val < CustomFr.MODULUS := CustomFr.add_lt a c haM hcM
  have hQl : (CustomFr.add b d).val < CustomFr.MODULUS := CustomFr.add_lt b d hbM hdM
  have hRl : (CustomFr.sub a c).val < CustomFr.MODULUS := CustomFr.sub_lt a c haM hcM
  have hSl : (CustomFr.sub b d).val < CustomFr.MODULUS := CustomFr.sub_lt b d hbM hdM
  have hF0 : (CustomFr.add (CustomFr.add a c) (CustomFr.add b d)).val = a.val + c.val + (b.val + d.val) := by
    rw [CustomFr.add_val _ _ hPl hQl, hP, hQ]
    apply Nat.mod_eq_of_lt
    unfold CustomFr.MODULUS
    omega
  have hF1 : (CustomFr.add (CustomFr.sub a c) (CustomFr.sub b d)).val = ((a.val + CustomFr.MODULUS - c.val) % CustomFr.MODULUS + (b.val + CustomFr.MODULUS - d.val) % CustomFr.MODULUS) % CustomFr.MODULUS := by
    rw [CustomFr.add_val _ _ hRl hSl, hR, hS]
  have hF2 : (CustomFr.sub (CustomFr.add a c) (CustomFr.add b d)).val = (a.val + c.val + CustomFr.MODULUS - (b.val + d.val)) % CustomFr.MODULUS := by
    rw [CustomFr.sub_val _ _ hPl hQl, hP, hQ]
  have hF3 : (CustomFr.sub (CustomFr.sub a c) (CustomFr.sub b d)).val = ((a.val + CustomFr.MODULUS - c.val) % CustomFr.MODULUS + CustomFr.MODULUS - (b.val + CustomFr.MODULUS - d.val) % CustomFr.MODULUS) % CustomFr.MODULUS := by
    rw [CustomFr.sub_val _ _ hRl hSl, hR, hS]
  have hF0l : (CustomFr.add (CustomFr.add a c) (CustomFr.add b d)).val < CustomFr.MODULUS := CustomFr.add_lt _ _ hPl hQl
  have hF1l : (CustomFr.add (CustomFr.sub a c) (CustomFr.sub b d)).val < CustomFr.MODULUS := CustomFr.add_lt _ _ hRl hSl
  have hF2l : (CustomFr.sub (CustomFr.add a c) (CustomFr.add b d)).val < CustomFr.MODULUS := CustomFr.sub_lt _ _ hPl hQl
  have hF3l : (CustomFr.sub (CustomFr.sub a c) (CustomFr.sub b d)).val < CustomFr.MODULUS := CustomFr.sub_lt _ _ hRl hSl
  have hT0 : (CustomFr.add (CustomFr.add (CustomFr.add a c) (CustomFr.add b d)) (CustomFr.sub (CustomFr.add a c) (CustomFr.add b d))).val = ((a.val + c.val + (b.val + d.val)) + (a.val + c.val + CustomFr.MODULUS - (b.val + d.val)) % CustomFr.MODULUS) % CustomFr.MODULUS := by
    rw [CustomFr.add_val _ _ hF0l hF2l, hF0, hF2]
  have hT1 : (CustomFr.add (CustomFr.add (CustomFr.sub a c) (CustomFr.sub b d)) (CustomFr.sub (CustomFr.sub a c) (CustomFr.sub b d))).val = (((a.val + CustomFr.MODULUS - c.val) % CustomFr.MODULUS + (b.val + CustomFr.MODULUS - d.val) % CustomFr.MODULUS) % CustomFr.MODULUS + ((a.val + CustomFr.MODULUS - c.val) % CustomFr.MODULUS + CustomFr.MODULUS - (b.val + CustomFr.MODULUS - d.val) % CustomFr.MODULUS) % CustomFr.MODULUS) % CustomFr.MODULUS := by
    rw [CustomFr.add_val _ _ hF1l hF3l, hF1, hF3]
  have hT2 : (CustomFr.sub (CustomFr.add (CustomFr.add a c) (CustomFr.add b d)) (CustomFr.sub (CustomFr.add a c) (CustomFr.add b d))).val = ((a.val + c.val + (b.val + d.val)) + CustomFr.MODULUS - (a.val + c.val + CustomFr.MODULUS - (b.val + d.val)) % CustomFr.MODULUS) % CustomFr.MODULUS := by
    rw [CustomFr.sub_val _ _ hF0l hF2l, hF0, hF2]
  have hT3 : (CustomFr.sub (CustomFr.add (CustomFr.sub a c) (CustomFr.sub b d)) (CustomFr.sub (CustomFr.sub a c) (CustomFr.sub b d))).val = (((a.val + CustomFr.MODULUS - c.val) % CustomFr.MODULUS + (b.val + CustomFr.MODULUS - d.val) % CustomFr.MODULUS) % CustomFr.MODULUS + CustomFr.MODULUS - ((a.val + CustomFr.MODULUS - c.val) % CustomFr.MODULUS + CustomFr.MODULUS - (b.val + CustomFr.MODULUS - d.val) % CustomFr.MODULUS) % CustomFr.MODULUS) % CustomFr.MODULUS := by
    rw [CustomFr.sub_val _ _ hF1l hF3l, hF1, hF3]
  have hT0l : (CustomFr.add (CustomFr.add (CustomFr.add a c) (CustomFr.add b d)) (CustomFr.sub (CustomFr.add a c) (CustomFr.add b d))).val < CustomFr.MODULUS := CustomFr.add_lt _ _ hF0l hF2l
  have hT1l : (CustomFr.add (CustomFr.add (CustomFr.sub a c) (CustomFr.sub b d)) (CustomFr.sub (CustomFr.sub a c) (CustomFr.sub b d))).val < CustomFr.MODULUS := CustomFr.add_lt _ _ hF1l hF3l
  have hT2l : (CustomFr.sub (CustomFr.add (CustomFr.add a c) (CustomFr.add b d)) (CustomFr.sub (CustomFr.add a c) (CustomFr.add b d))).val < CustomFr.MODULUS := CustomFr.sub_lt _ _ hF0l hF2l
  have hT3l : (CustomFr.sub (CustomFr.add (CustomFr.sub a c) (CustomFr.sub b d)) (CustomFr.sub (CustomFr.sub a c) (CustomFr.sub b d))).val < CustomFr.MODULUS := CustomFr.sub_lt _ _ hF1l hF3l
  have hG0 : (CustomFr.add (CustomFr.add (CustomFr.add (CustomFr.add a c) (CustomFr.add b d)) (CustomFr.sub (CustomFr.add a c) (CustomFr.add b d))) (CustomFr.add (CustomFr.add (CustomFr.sub a c) (CustomFr.sub b d)) (CustomFr.sub (CustomFr.sub a c) (CustomFr.sub b d)))).val = 4 * a.val := by
    rw [CustomFr.add_val _ _ hT0l hT1l, hT0, hT1]
    unfold CustomFr.MODULUS at *
    omega
  have hG1 : (CustomFr.add (CustomFr.sub (CustomFr.add (CustomFr.add a c) (CustomFr.add b d)) (CustomFr.sub (CustomFr.add a c) (CustomFr.add b d))) (CustomFr.sub (CustomFr.add (CustomFr.sub a c) (CustomFr.sub b d)) (CustomFr.sub (CustomFr.sub a c) (CustomFr.sub b d)))).val = 4 * b.val := by
    rw [CustomFr.add_val _ _ hT2l hT3l, hT2, hT3]
    unfold CustomFr.MODULUS at *
    omega
  have hG2 : (CustomFr.sub (CustomFr.add (CustomFr.add (CustomFr.add a c) (CustomFr.add b d)) (CustomFr.sub (CustomFr.add a c) (CustomFr.add b d))) (CustomFr.add (CustomFr.add (CustomFr.sub a c) (CustomFr.sub b d)) (CustomFr.sub (CustomFr.sub a c) (CustomFr.sub b d)))).val = 4 * c.val := by
    rw [CustomFr.sub_val _ _ hT0l hT1l, hT0, hT1]
    unfold CustomFr.MODULUS at *
    omega
  have hG3 : (CustomFr.sub (CustomFr.sub (CustomFr.add (CustomFr.add a c) (CustomFr.add b d)) (CustomFr.sub (CustomFr.add a c) (CustomFr.add b d))) (CustomFr.sub (CustomFr.add (CustomFr.sub a c) (CustomFr.sub b d)) (CustomFr.sub (CustomFr.sub a c) (CustomFr.sub b d)))).val = 4 * d.val := by
    rw [CustomFr.sub_val _ _ hT2l hT3l, hT2, hT3]
    unfold CustomFr.MODULUS at *
    omega
  have hH0 : CustomFr.from_u64 ((CustomFr.add (CustomFr.add (CustomFr.add (CustomFr.add a c) (CustomFr.add b d)) (CustomFr.sub (CustomFr.add a c) (CustomFr.add b d))) (CustomFr.add (CustomFr.add (CustomFr.sub a c) (CustomFr.sub b d)) (CustomFr.sub (CustomFr.sub a c) (CustomFr.sub b d)))).val % 2 ^ 64 / 4) = a := by
    rw [hG0]
    show (⟨4 * a.val % 2 ^ 64 / 4 % 2 ^ 64⟩ : CustomFr) = a
    have he : 4 * a.val % 2 ^ 64 / 4 % 2 ^ 64 = a.val := by omega
    rw [he]
  have hH1 : CustomFr.from_u64 ((CustomFr.add (CustomFr.sub (CustomFr.add (CustomFr.add a c) (CustomFr.add b d)) (CustomFr.sub (CustomFr.add a c) (CustomFr.add b d))) (CustomFr.sub (CustomFr.add (CustomFr.sub a c) (CustomFr.sub b d)) (CustomFr.sub (CustomFr.sub a c) (CustomFr.sub b d)))).val % 2 ^ 64 / 4) = b := by
    rw [hG1]
    show (⟨4 * b.val % 2 ^ 64 / 4 % 2 ^ 64⟩ : CustomFr) = b
    have he : 4 * b.val % 2 ^ 64 / 4 % 2 ^ 64 = b.val := by omega
    rw [he]
  have hH2 : CustomFr.from_u64 ((CustomFr.sub (CustomFr.add (CustomFr.add (CustomFr.add a c) (CustomFr.add b d)) (CustomFr.sub (CustomFr.add a c) (CustomFr.add b d))) (CustomFr.add (CustomFr.add (CustomFr.sub a c) (CustomFr.sub b d)) (CustomFr.sub (CustomFr.sub a c) (CustomFr.sub b d)))).val % 2 ^ 64 / 4) = c := by
    rw [hG2]
    show (⟨4 * c.val % 2 ^ 64 / 4 % 2 ^ 64⟩ : CustomFr) = c
    have he : 4 * c.val % 2 ^ 64 / 4 % 2 ^ 64 = c.val := by omega
    rw [he]
  have hH3 : CustomFr.from_u64 ((CustomFr.sub (CustomFr.sub (CustomFr.add (CustomFr.add a c) (CustomFr.add b d)) (CustomFr.sub (CustomFr.add a c) (CustomFr.add b d))) (CustomFr.sub (CustomFr.add (CustomFr.sub a c) (CustomFr.sub b d)) (CustomFr.sub (CustomFr.sub a c) (CustomFr.sub b d)))).val % 2 ^ 64 / 4) = d := by
    rw [hG3]
    show (⟨4 * d.val % 2 ^ 64 / 4 % 2 ^ 64⟩ : CustomFr) = d
    have he : 4 * d.val % 2 ^ 64 / 4 % 2 ^ 64 = d.val := by omega
    rw [he]
  refine ⟨by rw [hfwd], ?_, ?_⟩
  · rw [hfwd]
    show (CustomFFT.ntt [(CustomFr.add (CustomFr.add a c) (CustomFr.add b d)), (CustomFr.add (CustomFr.sub a c) (CustomFr.sub b d)), (CustomFr.sub (CustomFr.add a c) (CustomFr.add b d)), (CustomFr.sub (CustomFr.sub a c) (CustomFr.sub b d))] true).1 = Except.ok ()
    rw [hinv]
  · rw [hfwd]
    show (CustomFFT.ntt [(CustomFr.add (CustomFr.add a c) (CustomFr.add b d)), (CustomFr.add (CustomFr.sub a c) (CustomFr.sub b d)), (CustomFr.sub (CustomFr.add a c) (CustomFr.add b d)), (CustomFr.sub (CustomFr.sub a c) (CustomFr.sub b d))] true).2 = [a, b, c, d]
    rw [hinv]
    show [CustomFr.from_u64 ((CustomFr.add (CustomFr.add (CustomFr.add (CustomFr.add a c) (CustomFr.add b d)) (CustomFr.sub (CustomFr.add a c) (CustomFr.add b d))) (CustomFr.add (CustomFr.add (CustomFr.sub a c) (CustomFr.sub b d)) (CustomFr.sub (CustomFr.sub a c) (CustomFr.sub b d)))).val % 2 ^ 64 / 4),
        CustomFr.from_u64 ((CustomFr.add (CustomFr.sub (CustomFr.add (CustomFr.add a c) (CustomFr.add b d)) (CustomFr.sub (CustomFr.add a c) (CustomFr.add b d))) (CustomFr.sub (CustomFr.add (CustomFr.sub a c) (CustomFr.sub b d)) (CustomFr.sub (CustomFr.sub a c) (CustomFr.sub b d)))).val % 2 ^ 64 / 4),
        CustomFr.from_u64 ((CustomFr.sub (CustomFr.add (CustomFr.add (CustomFr.add a c) (CustomFr.add b d)) (CustomFr.sub (CustomFr.add a c) (CustomFr.add b d))) (CustomFr.add (CustomFr.add (CustomFr.sub a c) (CustomFr.sub b d)) (CustomFr.sub (CustomFr.sub a c) (CustomFr.sub b d)))).val % 2 ^ 64 / 4),
        CustomFr.from_u64 ((CustomFr.sub (CustomFr.sub (CustomFr.add (CustomFr.add a c) (CustomFr.add b d)) (CustomFr.sub (CustomFr.add a c) (CustomFr.add b d))) (CustomFr.sub (CustomFr.add (CustomFr.sub a c) (CustomFr.sub b d)) (CustomFr.sub (CustomFr.sub a c) (CustomFr.sub b d)))).val % 2 ^ 64 / 4)] = [a, b, c, d]
    rw [hH0, hH1, hH2, hH3]

/-- Witness for C6 at the repository's test vector `[1, 2, 3, 4]`. -/
theorem c6_roundtrip_len4_witness :
    ((1 : Nat) < 2 ^ 62 ∧ (2 : Nat) < 2 ^ 62 ∧ (3 : Nat) < 2 ^ 62 ∧
      (4 : Nat) < 2 ^ 62) ∧
    (CustomFFT.ntt (CustomFFT.ntt [(⟨1⟩ : CustomFr), ⟨2⟩, ⟨3⟩, ⟨4⟩] false).2 true).2 =
      [(⟨1⟩ : CustomFr), ⟨2⟩, ⟨3⟩, ⟨4⟩] :=
  ⟨⟨by decide, by decide, by decide, by decide⟩,
   (c6_roundtrip_len4 ⟨1⟩ ⟨2⟩ ⟨3⟩ ⟨4⟩ (by decide) (by decide) (by decide)
     (by decide)).2.2⟩

/-! ## Byte-level lemmas for C7 and C8 -/

namespace CustomFr

/-- Big-endian integer interpretation of a byte string. -/
def be_val (bs : List Nat) : Nat := bs.foldl (fun acc b => acc * 256 + b) 0

/-- Reassembling the eight big-endian bytes of a 64-bit limb recovers it. -/
theorem u64_from_be_of_bytes (w : Nat) :
    u64_from_be (w / 2 ^ 56 % 256) (w / 2 ^ 48 % 256) (w / 2 ^ 40 % 256)
      (w / 2 ^ 32 % 256) (w / 2 ^ 24 % 256) (w / 2 ^ 16 % 256)
      (w / 2 ^ 8 % 256) (w % 256) = w % 2 ^ 64 := by
  unfold u64_from_be
  omega

/-- `from_bytes_be` on an explicit 32-byte string accepts exactly the
big-endian interpretations below the modulus. -/
theorem from_bytes_be_cons (b0 b1 b2 b3 b4 b5 b6 b7 b8 b9 b10 b11 b12 b13 b14 b15 b16 b17 b18 b19 b20 b21 b22 b23 b24 b25 b26 b27 b28 b29 b30 b31 : Nat) :
    from_bytes_be [b0, b1, b2, b3, b4, b5, b6, b7, b8, b9, b10, b11, b12, b13, b14, b15, b16, b17, b18, b19, b20, b21, b22, b23, b24, b25, b26, b27, b28, b29, b30, b31] =
      (if be_val [b0, b1, b2, b3, b4, b5, b6, b7, b8, b9, b10, b11, b12, b13, b14, b15, b16, b17, b18, b19, b20, b21, b22, b23, b24, b25, b26, b27, b28, b29, b30, b31] < MODULUS
       then Except.ok ⟨be_val [b0, b1, b2, b3, b4, b5, b6, b7, b8, b9, b10, b11, b12, b13, b14, b15, b16, b17, b18, b19, b20, b21, b22, b23, b24, b25, b26, b27, b28, b29, b30, b31]⟩
       else Except.error "输入值大于域的模数") := by
  have hQ : be_val [b0, b1, b2, b3, b4, b5, b6, b7, b8, b9, b10, b11, b12, b13, b14, b15, b16, b17, b18, b19, b20, b21, b22, b23, b24, b25, b26, b27, b28, b29, b30, b31] =
      u64_from_be b24 b25 b26 b27 b28 b29 b30 b31 +
      (u64_from_be b16 b17 b18 b19 b20 b21 b22 b23) * 2 ^ 64 +
      (u64_from_be b8 b9 b10 b11 b12 b13 b14 b15) * 2 ^ 128 +
      (u64_from_be b0 b1 b2 b3 b4 b5 b6 b7) * 2 ^ 192 := by
    simp only [be_val, List.foldl_cons, List.foldl_nil, u64_from_be]
    ring
  rw [hQ]
  show (if is_valid ⟨u64_from_be b24 b25 b26 b27 b28 b29 b30 b31 +
      (u64_from_be b16 b17 b18 b19 b20 b21 b22 b23) * 2 ^ 64 +
      (u64_from_be b8 b9 b10 b11 b12 b13 b14 b15) * 2 ^ 128 +
      (u64_from_be b0 b1 b2 b3 b4 b5 b6 b7) * 2 ^ 192⟩
      then Except.ok (⟨u64_from_be b24 b25 b26 b27 b28 b29 b30 b31 +
      (u64_from_be b16 b17 b18 b19 b20 b21 b22 b23) * 2 ^ 64 +
      (u64_from_be b8 b9 b10 b11 b12 b13 b14 b15) * 2 ^ 128 +
      (u64_from_be b0 b1 b2 b3 b4 b5 b6 b7) * 2 ^ 192⟩ : CustomFr)
      else Except.error "输入值大于域的模数") = _
  simp only [is_valid, decide_eq_true_eq]

set_option maxHeartbeats 2000000 in
/-- Field serialization round trip on canonical elements. -/
theorem from_bytes_be_to_bytes_be (x : CustomFr) (h : x.val < MODULUS) :
    from_bytes_be (to_bytes_be x) = Except.ok x := by
  have hL : from_bytes_be (to_bytes_be x) =
      (if is_valid ⟨u64_from_be (x.val % 2 ^ 64 / 2 ^ 56 % 256) (x.val % 2 ^ 64 / 2 ^ 48 % 256) (x.val % 2 ^ 64 / 2 ^ 40 % 256) (x.val % 2 ^ 64 / 2 ^ 32 % 256) (x.val % 2 ^ 64 / 2 ^ 24 % 256) (x.val % 2 ^ 64 / 2 ^ 16 % 256) (x.val % 2 ^ 64 / 2 ^ 8 % 256) (x.val % 2 ^ 64 % 256) +
        (u64_from_be (x.val / 2 ^ 64 % 2 ^ 64 / 2 ^ 56 % 256) (x.val / 2 ^ 64 % 2 ^ 64 / 2 ^ 48 % 256) (x.val / 2 ^ 64 % 2 ^ 64 / 2 ^ 40 % 256) (x.val / 2 ^ 64 % 2 ^ 64 / 2 ^ 32 % 256) (x.val / 2 ^ 64 % 2 ^ 64 / 2 ^ 24 % 256) (x.val / 2 ^ 64 % 2 ^ 64 / 2 ^ 16 % 256) (x.val / 2 ^ 64 % 2 ^ 64 / 2 ^ 8 % 256) (x.val / 2 ^ 64 % 2 ^ 64 % 256)) * 2 ^ 64 +
        (u64_from_be (x.val / 2 ^ 128 % 2 ^ 64 / 2 ^ 56 % 256) (x.val / 2 ^ 128 % 2 ^ 64 / 2 ^ 48 % 256) (x.val / 2 ^ 128 % 2 ^ 64 / 2 ^ 40 % 256) (x.val / 2 ^ 128 % 2 ^ 64 / 2 ^ 32 % 256) (x.val / 2 ^ 128 % 2 ^ 64 / 2 ^ 24 % 256) (x.val / 2 ^ 128 % 2 ^ 64 / 2 ^ 16 % 256) (x.val / 2 ^ 128 % 2 ^ 64 / 2 ^ 8 % 256) (x.val / 2 ^ 128 % 2 ^ 64 % 256)) * 2 ^ 128 +
        (u64_from_be (x.val / 2 ^ 192 % 2 ^ 64 / 2 ^ 56 % 256) (x.val / 2 ^ 192 % 2 ^ 64 / 2 ^ 48 % 256) (x.val / 2 ^ 192 % 2 ^ 64 / 2 ^ 40 % 256) (x.val / 2 ^ 192 % 2 ^ 64 / 2 ^ 32 % 256) (x.val / 2 ^ 192 % 2 ^ 64 / 2 ^ 24 % 256) (x.val / 2 ^ 192 % 2 ^ 64 / 2 ^ 16 % 256) (x.val / 2 ^ 192 % 2 ^ 64 / 2 ^ 8 % 256) (x.val / 2 ^ 192 % 2 ^ 64 % 256)) * 2 ^ 192⟩
       then Except.ok (⟨u64_from_be (x.val % 2 ^ 64 / 2 ^ 56 % 256) (x.val % 2 ^ 64 / 2 ^ 48 % 256) (x.val % 2 ^ 64 / 2 ^ 40 % 256) (x.val % 2 ^ 64 / 2 ^ 32 % 256) (x.val % 2 ^ 64 / 2 ^ 24 % 256) (x.val % 2 ^ 64 / 2 ^ 16 % 256) (x.val % 2 ^ 64 / 2 ^ 8 % 256) (x.val % 2 ^ 64 % 256) +
        (u64_from_be (x.val / 2 ^ 64 % 2 ^ 64 / 2 ^ 56 % 256) (x.val / 2 ^ 64 % 2 ^ 64 / 2 ^ 48 % 256) (x.val / 2 ^ 64 % 2 ^ 64 / 2 ^ 40 % 256) (x.val / 2 ^ 64 % 2 ^ 64 / 2 ^ 32 % 256) (x.val / 2 ^ 64 % 2 ^ 64 / 2 ^ 24 % 256) (x.val / 2 ^ 64 % 2 ^ 64 / 2 ^ 16 % 256) (x.val / 2 ^ 64 % 2 ^ 64 / 2 ^ 8 % 256) (x.val / 2 ^ 64 % 2 ^ 64 % 256)) * 2 ^ 64 +
        (u64_from_be (x.val / 2 ^ 128 % 2 ^ 64 / 2 ^ 56 % 256) (x.val / 2 ^ 128 % 2 ^ 64 / 2 ^ 48 % 256) (x.val / 2 ^ 128 % 2 ^ 64 / 2 ^ 40 % 256) (x.val / 2 ^ 128 % 2 ^ 64 / 2 ^ 32 % 256) (x.val / 2 ^ 128 % 2 ^ 64 / 2 ^ 24 % 256) (x.val / 2 ^ 128 % 2 ^ 64 / 2 ^ 16 % 256) (x.val / 2 ^ 128 % 2 ^ 64 / 2 ^ 8 % 256) (x.val / 2 ^ 128 % 2 ^ 64 % 256)) * 2 ^ 128 +
        (u64_from_be (x.val / 2 ^ 192 % 2 ^ 64 / 2 ^ 56 % 256) (x.val / 2 ^ 192 % 2 ^ 64 / 2 ^ 48 % 256) (x.val / 2 ^ 192 % 2 ^ 64 / 2 ^ 40 % 256) (x.val / 2 ^ 192 % 2 ^ 64 / 2 ^ 32 % 256) (x.val / 2 ^ 192 % 2 ^ 64 / 2 ^ 24 % 256) (x.val / 2 ^ 192 % 2 ^ 64 / 2 ^ 16 % 256) (x.val / 2 ^ 192 % 2 ^ 64 / 2 ^ 8 % 256) (x.val / 2 ^ 192 % 2 ^ 64 % 256)) * 2 ^ 192⟩ : CustomFr)
       else Except.error "输入值大于域的模数") := rfl
  rw [hL, u64_from_be_of_bytes (x.val % 2 ^ 64),
    u64_from_be_of_bytes (x.val / 2 ^ 64 % 2 ^ 64),
    u64_from_be_of_bytes (x.val / 2 ^ 128 % 2 ^ 64),
    u64_from_be_of_bytes (x.val / 2 ^ 192 % 2 ^ 64)]
  have hB : x.val < 2 ^ 256 := by unfold MODULUS at h; omega
  have hE : x.val % 2 ^ 64 % 2 ^ 64 + x.val / 2 ^ 64 % 2 ^ 64 % 2 ^ 64 * 2 ^ 64 +
      x.val / 2 ^ 128 % 2 ^ 64 % 2 ^ 64 * 2 ^ 128 +
      x.val / 2 ^ 192 % 2 ^ 64 % 2 ^ 64 * 2 ^ 192 = x.val := by omega
  rw [hE]
  have hvalid : is_valid (⟨x.val⟩ : CustomFr) = true := decide_eq_true h
  rw [if_pos hvalid]

end CustomFr

/-! ## C7 — serialization round trips -/

/-- C7 (amended): serialization round-trips for every canonical field
element, and for every curve point whose `z`-coordinate is `one` and whose
`x`/`y` are canonical; the identity point (`z = 0`) is excluded because
`from_bytes` always reconstructs `z = one`. -/
theorem c7_serialization_roundtrip (x : CustomFr) (p : CustomG1)
    (hx : x.val < CustomFr.MODULUS) (hz : p.z = CustomFr.one)
    (hpx : p.x.val < CustomFr.MODULUS) (hpy : p.y.val < CustomFr.MODULUS) :
    CustomFr.from_bytes_be (CustomFr.to_bytes_be x) = Except.ok x ∧
    CustomG1.from_bytes (CustomG1.to_bytes p) = Except.ok p := by
  refine ⟨CustomFr.from_bytes_be_to_bytes_be x hx, ?_⟩
  have hlen : (CustomG1.to_bytes p).length = 64 := rfl
  have h32 : (CustomFr.to_bytes_be p.x).length = 32 := rfl
  have htake : (CustomG1.to_bytes p).take 32 = CustomFr.to_bytes_be p.x := by
    rw [CustomG1.to_bytes, ← h32, List.take_left]
  have hdrop : (CustomG1.to_bytes p).drop 32 = CustomFr.to_bytes_be p.y := by
    rw [CustomG1.to_bytes, ← h32, List.drop_left]
  rw [CustomG1.from_bytes,
    if_neg (show ¬ (CustomG1.to_bytes p).length ≠ 64 from fun hh => hh hlen),
    htake, hdrop, CustomFr.from_bytes_be_to_bytes_be p.x hpx,
    CustomFr.from_bytes_be_to_bytes_be p.y hpy]
  show Except.ok ⟨p.x, p.y, CustomFr.one⟩ = Except.ok p
  rw [← hz]

/-- Witness for C7 at a concrete field element and the generator point. -/
theorem c7_serialization_roundtrip_witness :
    CustomFr.from_bytes_be (CustomFr.to_bytes_be ⟨12345⟩) = Except.ok ⟨12345⟩ ∧
    CustomG1.from_bytes (CustomG1.to_bytes CustomG1.generator) =
      Except.ok CustomG1.generator :=
  c7_serialization_roundtrip ⟨12345⟩ CustomG1.generator (by decide) rfl
    (by decide) (by decide)

/-- C7 counterexample: the identity point (a curve point with `z = 0`)
decodes from its own encoding to `(0, 1, 1)`, not to itself. -/
theorem c7_point_roundtrip_fails_on_identity :
    CustomG1.from_bytes (CustomG1.to_bytes CustomG1.identity) =
      Except.ok (⟨CustomFr.zero, CustomFr.one, CustomFr.one⟩ : CustomG1) ∧
    CustomG1.from_bytes (CustomG1.to_bytes CustomG1.identity) ≠
      Except.ok CustomG1.identity := by
  exact ⟨by decide, by decide⟩

/-! ## C8 — decoding succeeds exactly below the modulus -/

/-- C8: a 32-byte big-endian input decodes successfully exactly when its
interpreted integer is below `MODULUS`; the encoding of `MODULUS` itself
fails with the decoding error, the encoding of `MODULUS - 1` succeeds. -/
theorem c8_from_bytes_be_iff (b0 b1 b2 b3 b4 b5 b6 b7 b8 b9 b10 b11 b12 b13 b14 b15 b16 b17 b18 b19 b20 b21 b22 b23 b24 b25 b26 b27 b28 b29 b30 b31 : Nat) :
    ((∃ x, CustomFr.from_bytes_be [b0, b1, b2, b3, b4, b5, b6, b7, b8, b9, b10, b11, b12, b13, b14, b15, b16, b17, b18, b19, b20, b21, b22, b23, b24, b25, b26, b27, b28, b29, b30, b31] = Except.ok x) ↔
      CustomFr.be_val [b0, b1, b2, b3, b4, b5, b6, b7, b8, b9, b10, b11, b12, b13, b14, b15, b16, b17, b18, b19, b20, b21, b22, b23, b24, b25, b26, b27, b28, b29, b30, b31] < CustomFr.MODULUS) ∧
    CustomFr.from_bytes_be (CustomFr.to_bytes_be ⟨CustomFr.MODULUS⟩) =
      Except.error "输入值大于域的模数" ∧
    CustomFr.from_bytes_be (CustomFr.to_bytes_be ⟨CustomFr.MODULUS - 1⟩) =
      Except.ok ⟨CustomFr.MODULUS - 1⟩ := by
  refine ⟨?_, by decide, by decide⟩
  rw [CustomFr.from_bytes_be_cons]
  constructor
  · rintro ⟨x, hx⟩
    by_contra hge
    rw [if_neg hge] at hx
    exact Except.noConfusion hx
  · intro hlt
    exact ⟨⟨CustomFr.be_val [b0, b1, b2, b3, b4, b5, b6, b7, b8, b9, b10, b11, b12, b13, b14, b15, b16, b17, b18, b19, b20, b21, b22, b23, b24, b25, b26, b27, b28, b29, b30, b31]⟩, by rw [if_pos hlt]⟩

/-- Witness for C8: the byte string of the integer 1 decodes successfully. -/
theorem c8_from_bytes_be_iff_witness :
    ∃ x, CustomFr.from_bytes_be [0, 0, 0, 0, 0, 0, 0, 0, 0, 0, 0, 0, 0, 0, 0, 0, 0, 0, 0, 0, 0, 0, 0, 0, 0, 0, 0, 0, 0, 0, 0, 1] = Except.ok x :=
  (c8_from_bytes_be_iff 0 0 0 0 0 0 0 0 0 0 0 0 0 0 0 0 0 0 0 0 0 0 0 0 0 0 0 0 0 0 0 1).1.mpr (by decide)

end Chapter15
